import Mathlib

/-!
Verification development for the mashu-csv-db2 metadata extractor.

The Go sources are shallowly embedded:
* `types.go`    : `Config`, `Metadata`, `Column`, `KeyType` and the CSV
                  serialization `Metadata.ToCSVString`.
* `rdbms.go`    : `MetadataInProcess` (the result-or-error envelope; the Go
                  `error` interface is modelled as `Option String`, `nil`
                  becoming `none`) and the sink stage `writeCSV` (modelled
                  over the complete list of envelopes the channel delivers,
                  with a non-cancelled context and an in-memory, infallible
                  sink buffer).
* `db2.go` etc. : the three dialect table mappers `toMetadata` and the
                  correlator loop of `extractColumns` (modelled over the
                  complete table-envelope sequence and the sequence of
                  successfully scanned-and-mapped column rows; receiving
                  from the exhausted/closed table channel yields the Go
                  zero value of the envelope).
* the generic row scanner (`ColumnValue.Scan`) and `Row.Map`.

Go `map[string]string` values are modelled at their interface as functions
`String → Option String`; Go standard-library formatting helpers are
modelled at their interface (`strconv.FormatInt`/`FormatUint` as decimal
`toString`, `time.Time.Format(time.RFC3339Nano)` as an explicit RFC 3339
formatter with trailing fractional zeros removed, and
`strconv.FormatFloat(_, 'g', -1, _)` as an arbitrary formatter parameter,
since float formatting is outside the repository).
-/

/-- Run configuration (types.go, struct Config). Field types follow the Go
struct; only `Lang` and `Remarks` are read by the embedded functions. -/
structure Config where
  Hostname : String := ""
  Database : String := ""
  Port : Int := 0
  UserID : String := ""
  Password : String := ""
  Lang : String := ""
  Remarks : List String := []
  CSVFile : String := ""
  SystemSchema : String := ""
  TargetSchema : List String := []
  deriving DecidableEq, Repr

/-- KeyType (types.go): key constraint and composite-key order. -/
structure KeyType where
  Constraint : Int := 0
  Order : Int := 0
  deriving DecidableEq, Repr

/-- Column (types.go): one column's metadata. -/
structure Column where
  Name : String := ""
  Alias : String := ""
  Description : String := ""
  «Type» : String := ""
  Mode : Int := 0
  Order : Int := 0
  KeyType : KeyType := {}
  deriving DecidableEq, Repr

/-- Metadata (types.go): one extracted table. -/
structure Metadata where
  Name : String := ""
  Alias : String := ""
  FormalName : String := ""
  Description : String := ""
  MetaType : Int := 0
  Lang : String := ""
  Columns : List Column := []
  deriving DecidableEq, Repr

/-- Go zero value of `Metadata` (what a receive on a closed channel of
`MetadataInProcess` yields in its `Data` field). -/
def zeroMetadata : Metadata := {}

/-- MetaTypeName (types.go): string form of `MetaType`; unknown values map
to the empty string. -/
def Metadata.MetaTypeName (m : Metadata) : String :=
  match m.MetaType with
  | 1 => "Table"
  | 2 => "Model"
  | 3 => "Stream"
  | 4 => "File"
  | _ => ""

/-- ModeName (types.go): string form of `Mode`. -/
def Column.ModeName (c : Column) : String :=
  match c.Mode with
  | 0 => "Nullable"
  | 1 => "Required"
  | 2 => "Repeated"
  | _ => ""

/-- ConstraintName (types.go): string form of `KeyType.Constraint`. -/
def KeyType.ConstraintName (k : KeyType) : String :=
  match k.Constraint with
  | 1 => "Primary"
  | _ => ""

/-- The "20,," table record line written by `ToCSVString` (types.go,
the first `WriteString`). -/
def tableRecord (m : Metadata) : String :=
  "20,," ++ m.FormalName ++ "," ++ m.Alias ++ "," ++ m.Description ++ ","
    ++ m.Lang ++ "," ++ m.MetaTypeName ++ "\n"

/-- The "30,," column record line written by `ToCSVString` (types.go,
the `WriteString` inside the column loop). -/
def columnRecord (c : Column) : String :=
  "30,," ++ c.Name ++ "," ++ c.Alias ++ "," ++ c.Description ++ ","
    ++ c.«Type» ++ "," ++ c.ModeName ++ "," ++ c.KeyType.ConstraintName ++ "\n"

/-- ToCSVString (types.go): table record, then one column record per
column appended in order into the string builder, then a blank line. -/
def Metadata.ToCSVString (m : Metadata) : String :=
  (m.Columns.foldl (fun buf c => buf ++ columnRecord c) (tableRecord m)) ++ "\n"

/-- Concatenation of the column records of a column list, in order
(specification-side description of the column loop's total output). -/
def columnRecords : List Column → String
  | [] => ""
  | c :: cs => columnRecord c ++ columnRecords cs

theorem string_append_empty (s : String) : s ++ "" = s := by
  cases s with
  | mk d =>
      show String.mk (d ++ ("" : String).data) = String.mk d
      simp

theorem string_append_assoc (a b c : String) : a ++ b ++ c = a ++ (b ++ c) := by
  cases a with
  | mk da =>
      cases b with
      | mk db =>
          cases c with
          | mk dc =>
              show String.mk (da ++ db ++ dc) = String.mk (da ++ (db ++ dc))
              simp

theorem foldl_columnRecord (l : List Column) (b : String) :
    l.foldl (fun buf c => buf ++ columnRecord c) b = b ++ columnRecords l := by
  induction l generalizing b with
  | nil => simp [columnRecords, string_append_empty]
  | cons c cs ih =>
      simp only [List.foldl, columnRecords]
      rw [ih, string_append_assoc]

/-- C9: the literal example Metadata serializes to exactly the table line
"20,,DB2INST1.EMP,,,ja,Table", the column line
"30,,ID,,,INTEGER,Required,Primary" and a terminating blank line, in that
order; in general `ToCSVString` produces one "20,," table record, the
"30,," records of the columns in column order, and a final blank line. -/
theorem c9_tocsvstring_shape :
    (Metadata.ToCSVString
      { Name := "", Alias := "", FormalName := "DB2INST1.EMP",
        Description := "", MetaType := 1, Lang := "ja",
        Columns := [{ Name := "ID", Alias := "", Description := "",
                      «Type» := "INTEGER", Mode := 1, Order := 0,
                      KeyType := { Constraint := 1, Order := 1 } }] }
      = "20,,DB2INST1.EMP,,,ja,Table\n30,,ID,,,INTEGER,Required,Primary\n\n")
    ∧ ∀ m : Metadata,
        m.ToCSVString = tableRecord m ++ columnRecords m.Columns ++ "\n" := by
  constructor
  · rfl
  · intro m
    unfold Metadata.ToCSVString
    rw [foldl_columnRecord, string_append_assoc]

/-- Go `map[string]string` modelled at its interface: a partial function
from keys to values. Indexing with the comma-ok form `v, ok := m[k]`
becomes matching on `m k`. -/
abbrev GoMap := String → Option String

/-- Build a `GoMap` from explicit key-value pairs (first match wins; the
concrete maps used below have distinct keys). -/
def assocMap (l : List (String × String)) : GoMap :=
  fun k => (l.find? (fun p => p.1 = k)).map (fun p => p.2)

/-- The remark-routing loop shared verbatim by the Z and I dialect table
mappers (and by all three `toColumn` mappers): for each entry of
`config.Remarks`, a switch writes the remark value to `Alias` and/or
`Description` of the draft. -/
def applyRemarkRouting (remarks : List String) (v : String) (m : Metadata) : Metadata :=
  remarks.foldl (fun acc str =>
    if str = "Alias" then { acc with Alias := v }
    else if str = "Description" then { acc with Description := v }
    else acc) m

/-- toMetadata of the SYSCAT dialect (db2.go): builds the table draft from
`TABNAME` and `TABSCHEMA` (schema trimmed of padding via
`strings.TrimSpace`, modelled as `String.trim`); it reads no remarks
field. -/
def Db2Extractor.toMetadata (config : Config) (m : GoMap) : Metadata :=
  let meta : Metadata := { MetaType := 1, Lang := config.Lang }
  let meta := match m "TABNAME" with
    | some v => { meta with Name := v }
    | none => meta
  match m "TABSCHEMA" with
  | some v =>
      if meta.Name ≠ "" then { meta with FormalName := v.trim ++ "." ++ meta.Name }
      else meta
  | none => meta

/-- toMetadata of the Z (SYSIBM) dialect (part_001): builds the draft from
`NAME` and `CREATOR`, then routes the `REMARKS` field per configuration. -/
def ZDb2Extractor.toMetadata (config : Config) (m : GoMap) : Metadata :=
  let meta : Metadata := { MetaType := 1, Lang := config.Lang }
  let meta := match m "NAME" with
    | some v => { meta with Name := v }
    | none => meta
  let meta := match m "CREATOR" with
    | some v =>
        if meta.Name ≠ "" then { meta with FormalName := v.trim ++ "." ++ meta.Name }
        else meta
    | none => meta
  match m "REMARKS" with
  | some v => applyRemarkRouting config.Remarks v meta
  | none => meta

/-- toMetadata of the I (QSYS2) dialect (part_002): builds the draft from
`TABLE_NAME` and `TABLE_OWNER`, then routes the `LONG_COMMENT` field per
configuration. -/
def IDb2Extractor.toMetadata (config : Config) (m : GoMap) : Metadata :=
  let meta : Metadata := { MetaType := 1, Lang := config.Lang }
  let meta := match m "TABLE_NAME" with
    | some v => { meta with Name := v }
    | none => meta
  let meta := match m "TABLE_OWNER" with
    | some v =>
        if meta.Name ≠ "" then { meta with FormalName := v.trim ++ "." ++ meta.Name }
        else meta
    | none => meta
  match m "LONG_COMMENT" with
  | some v => applyRemarkRouting config.Remarks v meta
  | none => meta

theorem applyRemarkRouting_alias (remarks : List String) (v : String) :
    ∀ m : Metadata, (applyRemarkRouting remarks v m).Alias
      = if "Alias" ∈ remarks then v else m.Alias := by
  induction remarks with
  | nil => intro m; simp [applyRemarkRouting]
  | cons s rest ih =>
      intro m
      simp only [applyRemarkRouting, List.foldl] at ih ⊢
      by_cases hA : s = "Alias"
      · subst hA
        rw [ih]
        by_cases hr : "Alias" ∈ rest <;> simp [hr]
      · by_cases hD : s = "Description"
        · subst hD
          rw [if_neg (by decide), if_pos rfl, ih]
          simp [List.mem_cons, hA]
        · rw [if_neg hA, if_neg hD, ih]
          simp [List.mem_cons, Ne.symm hA]

theorem applyRemarkRouting_description (remarks : List String) (v : String) :
    ∀ m : Metadata, (applyRemarkRouting remarks v m).Description
      = if "Description" ∈ remarks then v else m.Description := by
  induction remarks with
  | nil => intro m; simp [applyRemarkRouting]
  | cons s rest ih =>
      intro m
      simp only [applyRemarkRouting, List.foldl] at ih ⊢
      by_cases hD : s = "Description"
      · subst hD
        rw [if_neg (by decide), if_pos rfl, ih]
        by_cases hr : "Description" ∈ rest <;> simp [hr]
      · by_cases hA : s = "Alias"
        · subst hA
          rw [if_pos rfl, ih]
          simp [List.mem_cons, hD]
        · rw [if_neg hA, if_neg hD, ih]
          simp [List.mem_cons, Ne.symm hD]

/-- Target configuration routing remarks to both Alias and Description. -/
def c6Config : Config := { Lang := "ja", Remarks := ["Alias", "Description"] }

/-- A SYSCAT.TABLES row carrying a REMARKS value. -/
def c6RowSyscat : GoMap :=
  assocMap [("TABNAME", "EMP"), ("TABSCHEMA", "DB2INST1"), ("REMARKS", "employee table")]

/-- A SYSIBM.SYSTABLES row carrying a REMARKS value. -/
def c6RowZ : GoMap :=
  assocMap [("NAME", "EMP"), ("CREATOR", "DB2INST1"), ("REMARKS", "employee table")]

/-- A QSYS2.SYSTABLES row carrying a LONG_COMMENT value. -/
def c6RowI : GoMap :=
  assocMap [("TABLE_NAME", "EMP"), ("TABLE_OWNER", "DB2INST1"),
            ("LONG_COMMENT", "employee table")]

/-- C6 counterexample: in the SYSCAT dialect the remarks field is present
and the configuration routes remarks to both Alias and Description, yet
the table mapper leaves both empty — the claim fails for this dialect. -/
theorem c6_counterexample :
    c6RowSyscat "REMARKS" = some "employee table"
    ∧ "Alias" ∈ c6Config.Remarks
    ∧ "Description" ∈ c6Config.Remarks
    ∧ (Db2Extractor.toMetadata c6Config c6RowSyscat).Alias ≠ "employee table"
    ∧ (Db2Extractor.toMetadata c6Config c6RowSyscat).Description ≠ "employee table" := by
  refine ⟨rfl, by decide, by decide, by decide, by decide⟩

/-- C6 amended: the Z (SYSIBM) and I (QSYS2) dialect table mappers apply
the configured remark routing to their remarks/comment field; the SYSCAT
dialect's table mapper reads no remarks field and always leaves Alias and
Description empty. -/
theorem c6_remark_routing_amended :
    (∀ (config : Config) (m : GoMap),
        (Db2Extractor.toMetadata config m).Alias = ""
        ∧ (Db2Extractor.toMetadata config m).Description = "")
    ∧ (∀ (config : Config) (m : GoMap) (v : String), m "REMARKS" = some v →
        (ZDb2Extractor.toMetadata config m).Alias
            = (if "Alias" ∈ config.Remarks then v else "")
        ∧ (ZDb2Extractor.toMetadata config m).Description
            = (if "Description" ∈ config.Remarks then v else ""))
    ∧ (∀ (config : Config) (m : GoMap) (v : String), m "LONG_COMMENT" = some v →
        (IDb2Extractor.toMetadata config m).Alias
            = (if "Alias" ∈ config.Remarks then v else "")
        ∧ (IDb2Extractor.toMetadata config m).Description
            = (if "Description" ∈ config.Remarks then v else "")) := by
  refine ⟨?_, ?_, ?_⟩
  · intro config m
    unfold Db2Extractor.toMetadata
    cases m "TABNAME" <;> cases m "TABSCHEMA" <;>
      constructor <;>
        simp [apply_ite Metadata.Alias, apply_ite Metadata.Description]
  · intro config m v h
    unfold ZDb2Extractor.toMetadata
    rw [h]
    cases m "NAME" <;> cases m "CREATOR" <;>
      constructor <;>
        simp [applyRemarkRouting_alias, applyRemarkRouting_description,
              apply_ite Metadata.Alias, apply_ite Metadata.Description]
  · intro config m v h
    unfold IDb2Extractor.toMetadata
    rw [h]
    cases m "TABLE_NAME" <;> cases m "TABLE_OWNER" <;>
      constructor <;>
        simp [applyRemarkRouting_alias, applyRemarkRouting_description,
              apply_ite Metadata.Alias, apply_ite Metadata.Description]

/-- C6 amended witness: the amended theorem applied to concrete rows of
the Z and I dialects whose remark field holds "employee table". -/
theorem c6_remark_routing_amended_witness :
    (c6RowZ "REMARKS" = some "employee table"
      ∧ (ZDb2Extractor.toMetadata c6Config c6RowZ).Alias
          = (if "Alias" ∈ c6Config.Remarks then "employee table" else ""))
    ∧ (c6RowI "LONG_COMMENT" = some "employee table"
      ∧ (IDb2Extractor.toMetadata c6Config c6RowI).Description
          = (if "Description" ∈ c6Config.Remarks then "employee table" else "")) :=
  ⟨⟨rfl, (c6_remark_routing_amended.2.1 c6Config c6RowZ "employee table" rfl).1⟩,
   ⟨rfl, (c6_remark_routing_amended.2.2 c6Config c6RowI "employee table" rfl).2⟩⟩

/-- Left-pad the decimal form of a natural number with zeros to a given
width (the zero padding used by Go's time layout fields). -/
def padNat (w n : Nat) : String :=
  let s := toString n
  String.mk (List.replicate (w - s.length) '0') ++ s

/-- Drop trailing '0' characters (Go's ".999999999" fractional layout
removes trailing zeros). -/
def dropTrailingZeros (s : String) : String :=
  String.mk ((s.data.reverse.dropWhile (fun ch => ch = '0')).reverse)

/-- A wall-clock instant as the Go time package presents it to the
RFC 3339 layout: calendar fields plus a zone offset in minutes. -/
structure GoTime where
  year : Nat
  month : Nat
  day : Nat
  hour : Nat
  minute : Nat
  second : Nat
  nanos : Nat
  offsetMinutes : Int
  deriving DecidableEq, Repr

/-- Interface model of Go's `time.Time.Format(time.RFC3339Nano)` (layout
"2006-01-02T15:04:05.999999999Z07:00"): RFC 3339 with nanosecond
precision, the fractional part omitted when zero and stripped of trailing
zeros otherwise, and a "Z" zone for a zero offset. -/
def formatRFC3339Nano (t : GoTime) : String :=
  let frac := if t.nanos = 0 then "" else "." ++ dropTrailingZeros (padNat 9 t.nanos)
  let zone :=
    if t.offsetMinutes = 0 then "Z"
    else
      (if t.offsetMinutes < 0 then "-" else "+")
        ++ padNat 2 (t.offsetMinutes.natAbs / 60) ++ ":"
        ++ padNat 2 (t.offsetMinutes.natAbs % 60)
  padNat 4 t.year ++ "-" ++ padNat 2 t.month ++ "-" ++ padNat 2 t.day
    ++ "T" ++ padNat 2 t.hour ++ ":" ++ padNat 2 t.minute ++ ":" ++ padNat 2 t.second
    ++ frac ++ zone

/-- A database value as delivered to `ColumnValue.Scan` (part_000): the
Go `interface{}` argument. `stringV`/`bytesV` carry the text (a Go string
and the string formed from a byte slice's bytes — `string(src)` is the
identity in this representation); `intV`/`uintV` carry what
`reflect.Value.Int`/`.Uint` return; `floatV` carries the width flag
(true = the 32-bit branch) and the IEEE bits of the value abstractly as a
natural number; `otherV` carries the `fmt.Sprintf("%v", value)` rendering
of a value of any other type. -/
inductive GoValue
  | nullV
  | stringV (s : String)
  | bytesV (s : String)
  | timeV (t : GoTime)
  | intV (i : Int)
  | uintV (n : Nat)
  | floatV (is32 : Bool) (bits : Nat)
  | boolV (b : Bool)
  | otherV (s : String)
  deriving DecidableEq, Repr

/-- ColumnValue.Scan (part_000): canonicalize one database value to a
string. The receiver-nil check is modelled by `destNil`; the returned
`Except` carries the Go error (`.error`) or the string stored into the
destination (`.ok`). `fmtFloat` is the interface model of
`strconv.FormatFloat(v, 'g', -1, bitSize)` (bit size chosen by the first
argument), left as a parameter because float formatting lives in the Go
standard library. `strconv.FormatInt`/`FormatUint` in base 10 are the
minimal decimal renderings `toString`. -/
def ColumnValue.Scan (fmtFloat : Bool → Nat → String) (destNil : Bool)
    (value : GoValue) : Except String String :=
  if destNil then Except.error "destination pointer is nil"
  else
    match value with
    | GoValue.nullV => Except.ok ""
    | GoValue.stringV s => Except.ok s
    | GoValue.bytesV s => Except.ok s
    | GoValue.timeV t => Except.ok (formatRFC3339Nano t)
    | GoValue.intV i => Except.ok (toString i)
    | GoValue.uintV n => Except.ok (toString n)
    | GoValue.floatV is32 bits => Except.ok (fmtFloat is32 bits)
    | GoValue.boolV b => Except.ok (if b then "true" else "false")
    | GoValue.otherV s => Except.ok s

/-- C7: for a non-nil destination, `Scan` maps null to exactly the empty
string, keeps strings and byte sequences verbatim, formats timestamps as
RFC 3339 with nanosecond precision, renders signed and unsigned integers
in minimal base-10 decimal, routes floats through the shortest round-trip
library formatter, renders booleans as "true"/"false", falls back to the
default human-readable rendering for any other value, and returns no
error for any input. -/
theorem c7_scan_canonicalization (fmtFloat : Bool → Nat → String) :
    (ColumnValue.Scan fmtFloat false GoValue.nullV = Except.ok "")
    ∧ (∀ s, ColumnValue.Scan fmtFloat false (GoValue.stringV s) = Except.ok s)
    ∧ (∀ s, ColumnValue.Scan fmtFloat false (GoValue.bytesV s) = Except.ok s)
    ∧ (∀ t, ColumnValue.Scan fmtFloat false (GoValue.timeV t)
          = Except.ok (formatRFC3339Nano t))
    ∧ (∀ i, ColumnValue.Scan fmtFloat false (GoValue.intV i)
          = Except.ok (toString i))
    ∧ (∀ n, ColumnValue.Scan fmtFloat false (GoValue.uintV n)
          = Except.ok (toString n))
    ∧ (∀ w b, ColumnValue.Scan fmtFloat false (GoValue.floatV w b)
          = Except.ok (fmtFloat w b))
    ∧ (∀ b, ColumnValue.Scan fmtFloat false (GoValue.boolV b)
          = Except.ok (if b then "true" else "false"))
    ∧ (∀ s, ColumnValue.Scan fmtFloat false (GoValue.otherV s) = Except.ok s)
    ∧ (∀ v, ∃ s, ColumnValue.Scan fmtFloat false v = Except.ok s) := by
  refine ⟨rfl, fun s => rfl, fun s => rfl, fun t => rfl, fun i => rfl,
          fun n => rfl, fun w b => rfl, fun b => rfl, fun s => rfl, fun v => ?_⟩
  cases v <;> exact ⟨_, rfl⟩

/-- Assignment `m[k] = v` on a Go map in the functional model: later
assignments override earlier ones. -/
def GoMap.insert (m : GoMap) (k v : String) : GoMap :=
  fun n => if n = k then some v else m n

/-- Empty Go map (`make(map[string]string, ...)`). -/
def GoMap.empty : GoMap := fun _ => none

/-- Row.Map (part_000): iterate the resolved column names with their
scanned values in order; assign `m[name] = v` only when the canonical
value `v` is not the empty string. The `Row` invariant of `NewRow` (one
value slot per name) is the equal-length zip. -/
def Row.Map (names values : List String) : GoMap :=
  (names.zip values).foldl
    (fun m nv => if nv.2 ≠ "" then m.insert nv.1 nv.2 else m) GoMap.empty

theorem rowmap_fold_untouched (pairs : List (String × String)) :
    ∀ (m : GoMap) (n : String), n ∉ pairs.map Prod.fst →
      (pairs.foldl (fun m nv => if nv.2 ≠ "" then m.insert nv.1 nv.2 else m) m) n
        = m n := by
  induction pairs with
  | nil => intro m n _; rfl
  | cons p rest ih =>
      intro m n hn
      simp only [List.map, List.mem_cons] at hn
      push_neg at hn
      simp only [List.foldl]
      rw [ih _ n hn.2]
      by_cases hv : p.2 = "" <;> simp [hv, GoMap.insert, hn.1]

theorem rowmap_fold_found (pairs : List (String × String)) :
    ∀ (m : GoMap) (n v : String), (pairs.map Prod.fst).Nodup →
      (n, v) ∈ pairs →
      (pairs.foldl (fun m nv => if nv.2 ≠ "" then m.insert nv.1 nv.2 else m) m) n
        = if v = "" then m n else some v := by
  induction pairs with
  | nil => intro m n v _ hmem; cases hmem
  | cons p rest ih =>
      intro m n v hnd hmem
      simp only [List.map, List.nodup_cons] at hnd
      simp only [List.foldl]
      rcases List.mem_cons.mp hmem with heq | htail
      · subst heq
        have hout : n ∉ rest.map Prod.fst := by
          simpa using hnd.1
        rw [rowmap_fold_untouched rest _ n hout]
        by_cases hv : v = "" <;> simp [hv, GoMap.insert]
      · have hne : n ≠ p.1 := by
          intro hcontr
          exact hnd.1 (hcontr ▸ List.mem_map_of_mem Prod.fst htail)
        rw [ih _ n v hnd.2 htail]
        by_cases hv : v = "" <;>
          by_cases hp : p.2 = "" <;> simp [hv, hp, GoMap.insert, hne]

theorem map_fst_zip_sublist : ∀ (l1 : List String) (l2 : List String),
    ((l1.zip l2).map Prod.fst).Sublist l1 := by
  intro l1
  induction l1 with
  | nil => intro l2; simp
  | cons a l1 ih =>
      intro l2
      cases l2 with
      | nil => simp
      | cons b l2 => simpa using List.Sublist.cons₂ a (ih l2)

/-- C8: for distinct resolved column names, a name is a key of the map
produced by `Row.Map` exactly when its canonicalized value is not the
empty string; a name whose value canonicalized to the empty string
(including a scanned null) is absent. -/
theorem c8_rowmap_key_iff_nonempty (names values : List String) (n v : String)
    (hnd : names.Nodup) (hmem : (n, v) ∈ names.zip values) :
    (Row.Map names values n).isSome ↔ v ≠ "" := by
  have hkeys : ((names.zip values).map Prod.fst).Nodup :=
    List.Nodup.sublist (map_fst_zip_sublist names values) hnd
  unfold Row.Map
  rw [rowmap_fold_found (names.zip values) GoMap.empty n v hkeys hmem]
  by_cases hv : v = "" <;> simp [hv, GoMap.empty]

/-- C8 witness: the theorem applied to the concrete row with names
["COLNAME", "REMARKS"] and values ["ID", ""]: COLNAME is a key (value
nonempty) while REMARKS is absent (value canonicalized to empty). -/
theorem c8_rowmap_key_iff_nonempty_witness :
    (["COLNAME", "REMARKS"].Nodup
      ∧ ("REMARKS", "") ∈ ["COLNAME", "REMARKS"].zip ["ID", ""])
    ∧ ¬ (Row.Map ["COLNAME", "REMARKS"] ["ID", ""] "REMARKS").isSome :=
  ⟨⟨by decide, by decide⟩,
   fun h =>
     absurd rfl
       ((c8_rowmap_key_iff_nonempty ["COLNAME", "REMARKS"] ["ID", ""]
         "REMARKS" "" (by decide) (by decide)).mp h)⟩

/-- MetadataInProcess (rdbms.go): the result-or-error envelope flowing
through the pipeline channels. The Go zero value (what a receive on a
closed channel yields) is the default value. -/
structure MetadataInProcess where
  Data : Metadata := {}
  Err : Option String := none
  deriving DecidableEq, Repr

/-- Envelope carrying a Metadata (`MetadataInProcess{Data: m}`). -/
def mkData (m : Metadata) : MetadataInProcess := { Data := m }

/-- Envelope carrying an error (`MetadataInProcess{Err: err}`). -/
def mkErr (e : String) : MetadataInProcess := { Err := some e }

/-- Append one column to a Metadata
(`meta.Columns = append(meta.Columns, *col)`). -/
def appendColumn (m : Metadata) (c : Column) : Metadata :=
  { m with Columns := m.Columns ++ [c] }

/-- The correlation-mismatch message built by `fmt.Errorf` in
extractColumns. -/
def mismatchMsg (metaName fn : String) : String :=
  "meta.FormalName(" ++ metaName ++ ") != formalName(" ++ fn ++ ")"

/-- The correlator loop of extractColumns (db2.go lines 171-218), one
step per successfully scanned column row `(col, formalName)`:
* with no current table, pull the next table envelope (a receive on the
  exhausted/closed channel yields the zero envelope); forward an error
  envelope and stop; otherwise, when a column is carried from the
  previous row, report a mismatch envelope if its owning key differs from
  the pulled table's FormalName and append the carried column to the
  pulled table either way;
* then compare the row's owning key with the current table's FormalName:
  append on a match, emit the current table and clear it on a mismatch
  (the row's column stays carried for the next iteration);
* when the rows are exhausted, emit the still-held current table. -/
def corrLoop : List MetadataInProcess → Option Metadata → Option (Column × String) →
    List (Column × String) → List MetadataInProcess
  | _, none, _, [] => []
  | _, some m, _, [] => [mkData m]
  | tables, some m, _, (c, fn) :: rest =>
      if m.FormalName = fn then
        corrLoop tables (some (appendColumn m c)) (some (c, fn)) rest
      else
        mkData m :: corrLoop tables none (some (c, fn)) rest
  | tables, none, carried, (c, fn) :: rest =>
      let pulled : MetadataInProcess × List MetadataInProcess :=
        match tables with
        | [] => ({ Data := zeroMetadata, Err := none }, [])
        | t :: ts => (t, ts)
      match pulled.1.Err with
      | some _ => [pulled.1]
      | none =>
          let pre : List MetadataInProcess :=
            match carried with
            | some (_, cfn) =>
                if pulled.1.Data.FormalName ≠ cfn then
                  [mkErr (mismatchMsg pulled.1.Data.FormalName cfn)]
                else []
            | none => []
          let m1 : Metadata :=
            match carried with
            | some (cc, _) => appendColumn pulled.1.Data cc
            | none => pulled.1.Data
          pre ++
            (if m1.FormalName = fn then
              corrLoop pulled.2 (some (appendColumn m1 c)) (some (c, fn)) rest
            else
              mkData m1 :: corrLoop pulled.2 none (some (c, fn)) rest)

/-- Instrumented variant of `corrLoop` that stops before the terminal
flush and also reports which table (if any) is still held as current when
the column rows are exhausted (none after an error stop). -/
def corrScan : List MetadataInProcess → Option Metadata → Option (Column × String) →
    List (Column × String) → List MetadataInProcess × Option Metadata
  | _, meta, _, [] => ([], meta)
  | tables, some m, _, (c, fn) :: rest =>
      if m.FormalName = fn then
        corrScan tables (some (appendColumn m c)) (some (c, fn)) rest
      else
        let r := corrScan tables none (some (c, fn)) rest
        (mkData m :: r.1, r.2)
  | tables, none, carried, (c, fn) :: rest =>
      let pulled : MetadataInProcess × List MetadataInProcess :=
        match tables with
        | [] => ({ Data := zeroMetadata, Err := none }, [])
        | t :: ts => (t, ts)
      match pulled.1.Err with
      | some _ => ([pulled.1], none)
      | none =>
          let pre : List MetadataInProcess :=
            match carried with
            | some (_, cfn) =>
                if pulled.1.Data.FormalName ≠ cfn then
                  [mkErr (mismatchMsg pulled.1.Data.FormalName cfn)]
                else []
            | none => []
          let m1 : Metadata :=
            match carried with
            | some (cc, _) => appendColumn pulled.1.Data cc
            | none => pulled.1.Data
          if m1.FormalName = fn then
            let r := corrScan pulled.2 (some (appendColumn m1 c)) (some (c, fn)) rest
            (pre ++ r.1, r.2)
          else
            let r := corrScan pulled.2 none (some (c, fn)) rest
            (pre ++ (mkData m1 :: r.1), r.2)

/-- The terminal flush of extractColumns (`if meta != nil { output <- ... }`). -/
def flushList : Option Metadata → List MetadataInProcess
  | some m => [mkData m]
  | none => []

/-- The full correlator stage over the table-envelope sequence and the
scanned column-row sequence. -/
def extractColumnsRun (tables : List MetadataInProcess)
    (rows : List (Column × String)) : List MetadataInProcess :=
  corrLoop tables none none rows

theorem corrLoop_eq_scan : ∀ (rows : List (Column × String))
    (tables : List MetadataInProcess) (meta : Option Metadata)
    (carried : Option (Column × String)),
    corrLoop tables meta carried rows
      = (corrScan tables meta carried rows).1
          ++ flushList (corrScan tables meta carried rows).2 := by
  intro rows
  induction rows with
  | nil =>
      intro tables meta carried
      cases meta <;> simp [corrLoop, corrScan, flushList]
  | cons cf rest ih =>
      intro tables meta carried
      obtain ⟨c, fn⟩ := cf
      cases meta with
      | some m =>
          by_cases h : m.FormalName = fn <;>
            simp [corrLoop, corrScan, h, ih, flushList]
      | none =>
          cases tables with
          | nil =>
              cases carried with
              | none =>
                  by_cases h : zeroMetadata.FormalName = fn <;>
                    simp [corrLoop, corrScan, h, ih, flushList]
              | some p =>
                  obtain ⟨cc, cfn⟩ := p
                  by_cases hm : zeroMetadata.FormalName ≠ cfn <;>
                    by_cases h : (appendColumn zeroMetadata cc).FormalName = fn <;>
                      simp [corrLoop, corrScan, hm, h, ih, flushList]
          | cons t ts =>
              cases hE : t.Err with
              | some e => simp [corrLoop, corrScan, hE, flushList]
              | none =>
                  cases carried with
                  | none =>
                      by_cases h : t.Data.FormalName = fn <;>
                        simp [corrLoop, corrScan, hE, h, ih, flushList]
                  | some p =>
                      obtain ⟨cc, cfn⟩ := p
                      by_cases hm : t.Data.FormalName ≠ cfn <;>
                        by_cases h : (appendColumn t.Data cc).FormalName = fn <;>
                          simp [corrLoop, corrScan, hE, hm, h, ih, flushList]

/-- Table fixture with qualified key "S.T1". -/
def k1meta : Metadata := { Name := "T1", FormalName := "S.T1", MetaType := 1, Lang := "ja" }

/-- Table fixture with qualified key "S.T2". -/
def k2meta : Metadata := { Name := "T2", FormalName := "S.T2", MetaType := 1, Lang := "ja" }

/-- Column fixture A. -/
def colA : Column := { Name := "A" }

/-- Column fixture B. -/
def colB : Column := { Name := "B" }

/-- Column fixture C. -/
def colC : Column := { Name := "C" }

/-- C3 evaluation at the claimed input: with tables [(k1,meta1),(k2,meta2)]
and columns [(k1,colA),(k1,colB),(k2,colC)] the correlator emits only
Metadata{meta1, Columns=[colA,colB]}; the second table is never pulled
(its first column row is the last row, so the loop ends right after the
mismatch cleared the current table) and Metadata{meta2, Columns=[colC]}
is not emitted. -/
theorem c3_second_table_not_emitted :
    extractColumnsRun [mkData k1meta, mkData k2meta]
        [(colA, "S.T1"), (colB, "S.T1"), (colC, "S.T2")]
      = [mkData { k1meta with Columns := [colA, colB] }]
    ∧ mkData { k2meta with Columns := [colC] }
        ∉ extractColumnsRun [mkData k1meta, mkData k2meta]
            [(colA, "S.T1"), (colB, "S.T1"), (colC, "S.T2")] := by
  constructor <;> decide

/-- C2 evaluation: a trailing table key with zero matching column rows is
never emitted — with tables [(k1,meta1),(k2,meta2)] and the single column
row (k1,colA), the output is exactly [Metadata{meta1,[colA]}] and no
envelope for key "S.T2" appears. -/
theorem c2_zero_column_table_not_emitted :
    extractColumnsRun [mkData k1meta, mkData k2meta] [(colA, "S.T1")]
      = [mkData { k1meta with Columns := [colA] }]
    ∧ ∀ mip ∈ extractColumnsRun [mkData k1meta, mkData k2meta] [(colA, "S.T1")],
        mip.Data.FormalName ≠ "S.T2" := by
  constructor <;> decide

/-- C4: if the column rows end while a table is still held as current,
the terminal flush emits that table exactly once as the final element of
the output stream. -/
theorem c4_terminal_flush (tables : List MetadataInProcess)
    (rows : List (Column × String)) (m : Metadata)
    (h : (corrScan tables none none rows).2 = some m) :
    extractColumnsRun tables rows = (corrScan tables none none rows).1 ++ [mkData m]
    ∧ (extractColumnsRun tables rows).count (mkData m)
        = ((corrScan tables none none rows).1).count (mkData m) + 1 := by
  unfold extractColumnsRun
  rw [corrLoop_eq_scan, h]
  exact ⟨rfl, by simp [flushList]⟩

/-- C4 witness: table k1 is current when the single matching column row
runs out, and the flush emits it once at the end. -/
theorem c4_terminal_flush_witness :
    ((corrScan [mkData k1meta] none none [(colA, "S.T1")]).2
        = some { k1meta with Columns := [colA] })
    ∧ extractColumnsRun [mkData k1meta] [(colA, "S.T1")]
        = (corrScan [mkData k1meta] none none [(colA, "S.T1")]).1
            ++ [mkData { k1meta with Columns := [colA] }] :=
  ⟨by decide,
   (c4_terminal_flush [mkData k1meta] [(colA, "S.T1")]
     { k1meta with Columns := [colA] } (by decide)).1⟩

/-- C5: pulling a non-error table envelope while carrying a column whose
owning key differs from the pulled table's FormalName emits one
correlation-error envelope, appends the carried column to the mismatched
table anyway, and continues the loop with that table as current — it does
not abort. -/
theorem c5_mismatch_reported_not_fatal (mip : MetadataInProcess)
    (ts : List MetadataInProcess) (cc : Column) (cfn : String) (c : Column)
    (fn : String) (rest : List (Column × String))
    (hE : mip.Err = none) (hne : mip.Data.FormalName ≠ cfn) :
    corrLoop (mip :: ts) none (some (cc, cfn)) ((c, fn) :: rest)
      = mkErr (mismatchMsg mip.Data.FormalName cfn)
          :: corrLoop ts (some (appendColumn mip.Data cc)) (some (cc, cfn))
               ((c, fn) :: rest) := by
  by_cases h : (appendColumn mip.Data cc).FormalName = fn <;>
    simp [corrLoop, hE, hne, h]

/-- C5 witness: the theorem applied with table k2 pulled while column A
owned by "S.T1" is carried. -/
theorem c5_mismatch_reported_not_fatal_witness :
    ((mkData k2meta).Err = none ∧ (mkData k2meta).Data.FormalName ≠ "S.T1")
    ∧ corrLoop [mkData k2meta] none (some (colA, "S.T1")) [(colC, "S.T2")]
        = mkErr (mismatchMsg "S.T2" "S.T1")
            :: corrLoop [] (some (appendColumn k2meta colA)) (some (colA, "S.T1"))
                 [(colC, "S.T2")] :=
  ⟨⟨rfl, by decide⟩,
   c5_mismatch_reported_not_fatal (mkData k2meta) [] colA "S.T1" colC "S.T2" []
     rfl (by decide)⟩

/-- The loop of writeCSV (rdbms.go lines 60-77) with a non-cancelled
context and an infallible in-memory sink: for each envelope received, the
CSV serialization of its `Data` field is written to the sink (the `Err`
field is never consulted); when the channel closes the function returns
nil. The `Except` return models the Go error result, with the final sink
contents attached to the nil (`.ok`) case. -/
def writeCSVLoop (out : String) : List MetadataInProcess → Except String String
  | [] => Except.ok out
  | m :: rest => writeCSVLoop (out ++ m.Data.ToCSVString) rest

/-- writeCSV (rdbms.go) over the complete sequence of envelopes the
column channel delivers before closing, starting from an empty sink. -/
def writeCSV (input : List MetadataInProcess) : Except String String :=
  writeCSVLoop "" input

/-- In-order concatenation of the CSV serializations of each envelope's
`Data` field. -/
def csvOutput : List MetadataInProcess → String
  | [] => ""
  | m :: rest => m.Data.ToCSVString ++ csvOutput rest

theorem writeCSVLoop_ok : ∀ (input : List MetadataInProcess) (out : String),
    writeCSVLoop out input = Except.ok (out ++ csvOutput input) := by
  intro input
  induction input with
  | nil => intro out; simp [writeCSVLoop, csvOutput, string_append_empty]
  | cons m rest ih =>
      intro out
      simp only [writeCSVLoop, csvOutput]
      rw [ih, string_append_assoc]

theorem string_empty_append (s : String) : "" ++ s = s := by
  cases s with
  | mk d =>
      show String.mk (("" : String).data ++ d) = String.mk d
      simp

theorem csvOutput_append (xs ys : List MetadataInProcess) :
    csvOutput (xs ++ ys) = csvOutput xs ++ csvOutput ys := by
  induction xs with
  | nil => simp [csvOutput, string_empty_append]
  | cons m rest ih =>
      simp only [List.cons_append, csvOutput, List.append_eq]
      rw [ih, string_append_assoc]

/-- C10: writeCSV never inspects `Err`: it returns nil (never an error)
for every input sequence, writing the CSV serialization of every
envelope's `Data` field in order — and the zero Metadata carried by a
pure error envelope serializes to "20,,,,,," followed by a blank line. -/
theorem c10_writecsv_ignores_err :
    (∀ input : List MetadataInProcess, writeCSV input = Except.ok (csvOutput input))
    ∧ (∀ e : String, (mkErr e).Data = zeroMetadata)
    ∧ zeroMetadata.ToCSVString = "20,,,,,,\n\n" := by
  refine ⟨fun input => ?_, fun e => rfl, rfl⟩
  unfold writeCSV
  rw [writeCSVLoop_ok, string_empty_append]

/-- C1 evaluation at the failing input: when a producer failure reaches
the sink as an envelope with non-nil `Err` (after any amount of prior
output), writeCSV — whose result the extractor's Run returns — still
returns nil, with the sink holding the prior output, the zero-Metadata
lines of the error envelope, and nothing retracted; the error value is
dropped. The claimed non-nil error never materializes. -/
theorem c1_error_envelope_not_fatal :
    (∀ e : String, writeCSV [mkErr e] = Except.ok "20,,,,,,\n\n")
    ∧ (∀ (pre : List Metadata) (e : String),
        writeCSV (pre.map mkData ++ [mkErr e])
          = Except.ok (csvOutput (pre.map mkData) ++ "20,,,,,,\n\n")) := by
  constructor
  · intro e
    unfold writeCSV
    rw [writeCSVLoop_ok]
    rfl
  · intro pre e
    unfold writeCSV
    rw [writeCSVLoop_ok, string_empty_append, csvOutput_append]
    rfl
